import Mathlib

/-
Verification of the kraken share-link → Markdown pipeline (src/main.rs).

The pipeline's pure core is embedded shallowly:
  * `normalize`        — the trim / trim_start_matches chain of `fetch_and_convert`
  * `extract_share_id` — the `/share/([a-f0-9\-]+)` search
  * `candidates`       — the two backend candidate URLs of `try_fetch_backend_json`
  * `scanMatches`      — the tolerant `"role" … "parts" : [ … ]` regex scan
  * `json_unescape`    — serde_json round-trip of a quoted fragment
  * `parse_backend_to_markdown`, `fetch_and_convert` — document assembly,
    with the network client abstracted as an oracle `String → FetchOutcome`.

Rust string / regex semantics that matter here and are modelled exactly:
  * `str::trim_start_matches` removes the prefix REPEATEDLY;
  * a regex without `(?m)` anchors `^`/`$` to the whole haystack;
  * `captures_iter` yields successive leftmost matches, lazy quantifiers
    taking the shortest span, `.` not matching a newline;
  * `serde_json::from_str` is strict: bad escapes, lone surrogates, raw
    control characters and trailing garbage are errors.
-/

namespace Kraken

/-- Unicode White_Space, the set used by Rust `char::is_whitespace` and by the
regex class `\s`. -/
def isRustWs (c : Char) : Bool :=
  c == ' ' || c == '\t' || c == '\n' || c == '\r' ||
  c.toNat == 0x0B || c.toNat == 0x0C || c.toNat == 0x85 || c.toNat == 0xA0 ||
  c.toNat == 0x1680 || (0x2000 ≤ c.toNat && c.toNat ≤ 0x200A) ||
  c.toNat == 0x2028 || c.toNat == 0x2029 || c.toNat == 0x202F ||
  c.toNat == 0x205F || c.toNat == 0x3000

/-- `str::trim` on the character list. -/
def rustTrimL (s : List Char) : List Char :=
  ((s.dropWhile isRustWs).reverse.dropWhile isRustWs).reverse

/-- `str::trim`. -/
def rustTrim (s : String) : String := String.mk (rustTrimL s.data)

/-- `str::trim_start_matches pat`: repeatedly removes the prefix `pat`.
Fuel-driven so that it is structurally recursive; the wrapper passes
`s.length + 1`, which is enough fuel for any non-empty pattern. -/
def trimStartAux (pat : List Char) : Nat → List Char → List Char
  | 0, s => s
  | fuel + 1, s => if pat.isPrefixOf s then trimStartAux pat fuel (s.drop pat.length) else s

/-- `str::trim_start_matches` on character lists. -/
def trimStartMatchesL (pat s : List Char) : List Char := trimStartAux pat (s.length + 1) s

/-- The Reference Normalizer of `fetch_and_convert`:
`share_url.trim().trim_start_matches("https://").trim_start_matches("http://")`. -/
def normalizeL (s : List Char) : List Char :=
  trimStartMatchesL "http://".data (trimStartMatchesL "https://".data (rustTrimL s))

/-- The Reference Normalizer, on strings. -/
def normalize (s : String) : String := String.mk (normalizeL s.data)

/-- `n` copies of `pat`, used to describe what `trim_start_matches` removed. -/
def repeatL (pat : List Char) : Nat → List Char
  | 0 => []
  | n + 1 => pat ++ repeatL pat n

/-- The character class `[a-f0-9-]` of the share-id regex. -/
def isShareChar (c : Char) : Bool :=
  (('a' ≤ c) && (c ≤ 'f')) || (('0' ≤ c) && (c ≤ '9')) || (c == '-')

/-- The literal part of the share-id regex `/share/([a-f0-9\-]+)`. -/
def shareLit : List Char := "/share/".data

/-- Leftmost search for `/share/([a-f0-9\-]+)`: at each position try the
literal followed by a non-empty greedy class run, else advance one character
(regex leftmost-match semantics). -/
def extractShareAux : List Char → Option (List Char)
  | [] => none
  | c :: rest =>
    if shareLit.isPrefixOf (c :: rest) then
      let tok := ((c :: rest).drop shareLit.length).takeWhile isShareChar
      if tok.isEmpty then extractShareAux rest else some tok
    else extractShareAux rest

/-- `extract_share_id` from src/main.rs. -/
def extract_share_id (s : String) : Option String :=
  (extractShareAux s.data).map String.mk

/-- The identifier actually used by `try_fetch_backend_json`:
`extract_share_id(normalized).unwrap_or_else(|| normalized.to_string())`. -/
def backendShareId (normalized : String) : String :=
  (extract_share_id normalized).getD normalized

/-- The two candidate URLs of `try_fetch_backend_json`; both interpolate the
single timestamp `ts` computed once per invocation. -/
def candidates (id : String) (ts : Nat) : List String :=
  ["https://r.jina.ai/http://chatgpt.com/backend-api/share/" ++ id ++ "?_ts=" ++ Nat.repr ts,
   "https://r.jina.ai/https://chatgpt.com/backend-api/share/" ++ id ++ "?_ts=" ++ Nat.repr ts]

/-- First occurrence of `pat` as a substring (Boolean). -/
def containsSub (pat : List Char) : List Char → Bool
  | [] => pat.isEmpty
  | c :: rest => pat.isPrefixOf (c :: rest) || containsSub pat rest

/-- The text after the first occurrence of `pat`, if any. -/
def afterFirst (pat : List Char) : List Char → Option (List Char)
  | [] => none
  | c :: rest =>
    if pat.isPrefixOf (c :: rest) then some ((c :: rest).drop pat.length)
    else afterFirst pat rest

/-- The cache-buster of a candidate URL: the text after the first `?_ts=`. -/
def cacheBuster (u : String) : Option String :=
  (afterFirst "?_ts=".data u.data).map String.mk

/- ---------- JSON fragments (serde_json) ---------- -/

/-- JSON whitespace as accepted by serde_json between tokens. -/
def isJsonWs (c : Char) : Bool := c == ' ' || c == '\t' || c == '\n' || c == '\r'

/-- Skip JSON whitespace. -/
def skipJsonWs (s : List Char) : List Char := s.dropWhile isJsonWs

/-- Value of one hex digit, as in a `\uXXXX` escape. -/
def hexVal (c : Char) : Option Nat :=
  if '0' ≤ c ∧ c ≤ '9' then some (c.toNat - '0'.toNat)
  else if 'a' ≤ c ∧ c ≤ 'f' then some (c.toNat - 'a'.toNat + 10)
  else if 'A' ≤ c ∧ c ≤ 'F' then some (c.toNat - 'A'.toNat + 10)
  else none

/-- Four hex digits of a `\uXXXX` escape. -/
def readHex4 : List Char → Option (Nat × List Char)
  | a :: b :: c :: d :: rest =>
    match hexVal a, hexVal b, hexVal c, hexVal d with
    | some x, some y, some z, some w => some (((x * 16 + y) * 16 + z) * 16 + w, rest)
    | _, _, _, _ => none
  | _ => none

/-- One escape sequence after a backslash, serde_json style: the simple
escapes, or `\uXXXX` with mandatory surrogate pairing (a lone surrogate is an
error). Returns the decoded characters and the remaining input. -/
def readEscape : List Char → Option (List Char × List Char)
  | [] => none
  | e :: rest =>
    if e = '"' then some (['"'], rest)
    else if e = '\\' then some (['\\'], rest)
    else if e = '/' then some (['/'], rest)
    else if e = 'b' then some ([Char.ofNat 8], rest)
    else if e = 'f' then some ([Char.ofNat 12], rest)
    else if e = 'n' then some (['\n'], rest)
    else if e = 'r' then some (['\r'], rest)
    else if e = 't' then some (['\t'], rest)
    else if e = 'u' then
      match readHex4 rest with
      | some (n, rest2) =>
        if 0xD800 ≤ n ∧ n ≤ 0xDBFF then
          match rest2 with
          | '\\' :: 'u' :: rest3 =>
            match readHex4 rest3 with
            | some (m, rest4) =>
              if 0xDC00 ≤ m ∧ m ≤ 0xDFFF then
                some ([Char.ofNat (0x10000 + (n - 0xD800) * 0x400 + (m - 0xDC00))], rest4)
              else none
            | none => none
          | _ => none
        else if 0xDC00 ≤ n ∧ n ≤ 0xDFFF then none
        else some ([Char.ofNat n], rest2)
      | none => none
    else none

/-- Body of a JSON string literal after the opening quote: decoded characters
and the input after the closing quote. serde_json rejects raw control
characters below 0x20. Fuel-driven (callers pass the input length). -/
def decodeJsonStringBody : Nat → List Char → Option (List Char × List Char)
  | _, [] => none
  | 0, _ :: _ => none
  | fuel + 1, c :: rest =>
    if c = '"' then some ([], rest)
    else if c = '\\' then
      match readEscape rest with
      | some (dc, rem) =>
        match decodeJsonStringBody fuel rem with
        | some (d, r) => some (dc ++ d, r)
        | none => none
      | none => none
    else if c.toNat < 0x20 then none
    else
      match decodeJsonStringBody fuel rest with
      | some (d, r) => some (c :: d, r)
      | none => none

/-- `serde_json::from_str::<String>`: optional surrounding whitespace, one
complete string literal, nothing else. -/
def jsonParseStringTotal (s : List Char) : Option (List Char) :=
  match skipJsonWs s with
  | '"' :: rest =>
    match decodeJsonStringBody rest.length rest with
    | some (d, rem) => if (skipJsonWs rem).isEmpty then some d else none
    | none => none
  | _ => none

/-- `json_unescape` from src/main.rs: wrap the fragment in quotes, decode it
with serde_json, and fall back to the fragment itself on any decode error. -/
def json_unescape (s : String) : String :=
  match jsonParseStringTotal ('"' :: s.data ++ ['"']) with
  | some d => String.mk d
  | none => s

/-- Elements of a JSON array of strings, entered at the first element
(whitespace already skipped, array known non-empty). -/
def parseArrayTail : Nat → List Char → Option (List (List Char) × List Char)
  | 0, _ => none
  | fuel + 1, s =>
    match s with
    | '"' :: rest =>
      match decodeJsonStringBody rest.length rest with
      | some (d, rem) =>
        match skipJsonWs rem with
        | ',' :: rem2 =>
          match parseArrayTail fuel (skipJsonWs rem2) with
          | some (ds, r) => some (d :: ds, r)
          | none => none
        | ']' :: rem2 => some ([d], rem2)
        | _ => none
      | none => none
    | _ => none

/-- `serde_json::from_str::<Vec<String>>`: a complete array whose elements are
all string literals, nothing else in the input. -/
def jsonParseStringArray (s : List Char) : Option (List String) :=
  match skipJsonWs s with
  | '[' :: rest =>
    match skipJsonWs rest with
    | ']' :: rem => if (skipJsonWs rem).isEmpty then some [] else none
    | t =>
      match parseArrayTail t.length t with
      | some (ds, rem) =>
        if (skipJsonWs rem).isEmpty then some (ds.map String.mk) else none
      | none => none
  | _ => none

/- ---------- the tolerant role/parts scan ---------- -/

/-- Strip an exact literal prefix, or fail. -/
def stripLitOpt (pat s : List Char) : Option (List Char) :=
  if pat.isPrefixOf s then some (s.drop pat.length) else none

/-- Greedy `\s*` (the following literal is never whitespace, so greedy
matching is exact here). -/
def dropWs (s : List Char) : List Char := s.dropWhile isRustWs

/-- `"role"\s*:\s*"(user|assistant)"` at the current position. -/
def matchRoleHead (s : List Char) : Option (List Char × List Char) :=
  match stripLitOpt "\"role\"".data s with
  | none => none
  | some s1 =>
    match stripLitOpt [':'] (dropWs s1) with
    | none => none
    | some s2 =>
      let s3 := dropWs s2
      match stripLitOpt "\"user\"".data s3 with
      | some s4 => some ("user".data, s4)
      | none =>
        match stripLitOpt "\"assistant\"".data s3 with
        | some s4 => some ("assistant".data, s4)
        | none => none

/-- Lazy `(.*?)\]`: capture up to the first `]`; `.` does not cross a
newline, so an intervening newline fails the attempt. -/
def lazyToBracket : List Char → Option (List Char × List Char)
  | [] => none
  | c :: rest =>
    if c = ']' then some ([], rest)
    else if c = '\n' then none
    else
      match lazyToBracket rest with
      | some (cap, rem) => some (c :: cap, rem)
      | none => none

/-- `"parts"\s*:\s*\[(.*?)\]` at the current position. -/
def matchPartsHead (s : List Char) : Option (List Char × List Char) :=
  match stripLitOpt "\"parts\"".data s with
  | none => none
  | some s1 =>
    match stripLitOpt [':'] (dropWs s1) with
    | none => none
    | some s2 =>
      match stripLitOpt ['['] (dropWs s2) with
      | none => none
      | some s3 => lazyToBracket s3

/-- Lazy `[\s\S]*?` before the parts group: the nearest position where the
parts pattern completes. -/
def findParts : List Char → Option (List Char × List Char)
  | [] => none
  | c :: rest =>
    match matchPartsHead (c :: rest) with
    | some r => some r
    | none => findParts rest

/-- One full match of the role/parts regex starting exactly here: role
capture, parts capture, and the input after the match. -/
def matchFullAt (s : List Char) : Option (String × String × List Char) :=
  match matchRoleHead s with
  | none => none
  | some (role, s1) =>
    match findParts s1 with
    | none => none
    | some (cap, rem) => some (String.mk role, String.mk cap, rem)

/-- `captures_iter` over the role/parts regex: successive leftmost matches,
resuming after each match. Fuel-driven; the wrapper passes the input length,
a match always consumes at least one character. -/
def scanAux : Nat → List Char → List (String × String)
  | 0, _ => []
  | _ + 1, [] => []
  | fuel + 1, c :: rest =>
    match matchFullAt (c :: rest) with
    | some (role, cap, rem) => (role, cap) :: scanAux fuel rem
    | none => scanAux fuel rest

/-- All role/parts matches of a body, in order. -/
def scanMatches (s : List Char) : List (String × String) := scanAux s.length s

/-- Lazy `(.*?)"`: capture up to the first quote, failing on a newline. -/
def lazyToQuote : List Char → Option (List Char)
  | [] => none
  | c :: rest =>
    if c = '"' then some []
    else if c = '\n' then none
    else
      match lazyToQuote rest with
      | some cap => some (c :: cap)
      | none => none

/-- `"title"\s*:\s*"(.*?)"` at the current position. -/
def matchTitleAt (s : List Char) : Option (List Char) :=
  match stripLitOpt "\"title\"".data s with
  | none => none
  | some s1 =>
    match stripLitOpt [':'] (dropWs s1) with
    | none => none
    | some s2 =>
      match stripLitOpt ['"'] (dropWs s2) with
      | none => none
      | some s3 => lazyToQuote s3

/-- Leftmost match of the title regex anywhere in the body. -/
def findTitle : List Char → Option (List Char)
  | [] => none
  | c :: rest =>
    match matchTitleAt (c :: rest) with
    | some r => some r
    | none => findTitle rest

/- ---------- document assembly ---------- -/

/-- `str::replace("\r\n", "\n")`: non-overlapping left-to-right replacement. -/
def crlfToLf : List Char → List Char
  | '\r' :: '\n' :: rest => '\n' :: crlfToLf rest
  | c :: rest => c :: crlfToLf rest
  | [] => []

/-- The human-readable role label of a turn. -/
def roleLabel (role : String) : String :=
  if role = "assistant" then "Ассистент" else "Пользователь"

/-- The text of one turn: parse the captured span as a JSON string array and
join with blank lines, else unescape the span as one fragment. -/
def partsToText (cap : String) : String :=
  match jsonParseStringArray ('[' :: cap.data ++ [']']) with
  | some vec => String.intercalate "\n\n" vec
  | none => json_unescape cap

/-- One rendered turn block: `> {role}: {text}\n\n` with CRLF normalized. -/
def turnBlock (m : String × String) : String :=
  "> " ++ roleLabel m.1 ++ ": " ++ String.mk (crlfToLf m.2.data) ++ "\n\n"

/-- The for-loop of `parse_backend_to_markdown` that pushes the turn blocks. -/
def concatBlocks : List (String × String) → String
  | [] => ""
  | m :: ms => turnBlock m ++ concatBlocks ms

/-- Header plus turn blocks of the structured document. -/
def assembleStructured (title : Option String) (normalized_share : String)
    (msgs : List (String × String)) : String :=
  ("# " ++ title.getD "ChatGPT Conversation" ++ "\n\n" ++
    "**Источник**: https://" ++ normalized_share ++ "\n\n") ++ concatBlocks msgs

/-- `parse_backend_to_markdown` from src/main.rs. -/
def parse_backend_to_markdown (body normalized_share : String) : Option String :=
  let title := (findTitle body.data).map (fun cap => json_unescape (String.mk cap))
  let msgs := (scanMatches body.data).map (fun m => (m.1, partsToText m.2))
  if msgs.isEmpty then none
  else some (assembleStructured title normalized_share msgs)

/- ---------- fallback extraction ---------- -/

/-- `^Title:\s*(.*)$` WITHOUT `(?m)`: `^` and `$` anchor to the whole
haystack, so the literal must sit at the very start and the capture (which
cannot cross a newline) must reach the very end. Greedy `\s*` takes the
maximal whitespace run; the attempt fails whenever a newline remains after
it. -/
def titleCaptureL (s : List Char) : Option (List Char) :=
  if "Title:".data.isPrefixOf s then
    let rest := (s.drop "Title:".data.length).dropWhile isRustWs
    if rest.contains '\n' then none else some rest
  else none

/-- Fallback title: the capture above, defaulting to the placeholder. -/
def fallbackTitle (text : String) : String :=
  match titleCaptureL text.data with
  | some t => String.mk t
  | none => "ChatGPT Conversation"

/-- The fixed turn-boundary marker of the fallback path. -/
def markerL : List Char := "##### You said:".data

/-- `(?m)^##### You said:` — find the first LINE-ANCHORED occurrence:
`anch` records whether the current position starts the text or follows a
newline. -/
def findMarkerAux : List Char → Nat → Bool → Option Nat
  | [], _, _ => none
  | c :: rest, i, anch =>
    if anch && markerL.isPrefixOf (c :: rest) then some i
    else findMarkerAux rest (i + 1) (c == '\n')

/-- Offset of the first line-anchored marker occurrence. -/
def findMarker (s : List Char) : Option Nat := findMarkerAux s 0 true

/-- The fallback body: from the marker on when the regex matches, else the
whole text (`&text[m.start()..]`). -/
def fallbackBody (text : String) : String :=
  match findMarker text.data with
  | some i => String.mk (text.data.drop i)
  | none => text

/-- The fallback document of `fetch_and_convert`: heading, source line with
the ORIGINAL `share_url`, then the (possibly truncated) body. -/
def assembleFallback (share_url text : String) : String :=
  ("# " ++ fallbackTitle text ++ "\n\n" ++ "**Источник**: " ++ share_url ++ "\n\n") ++
    fallbackBody text

/-- The fallback URL: `https://r.jina.ai/http://{normalized}{sep}_ts={ts}`
(the third `format!` argument is the empty string in both branches). -/
def fallbackUrl (normalized : String) (ts : Nat) : String :=
  "https://r.jina.ai/http://" ++ normalized ++
    (if normalized.data.contains '?' then "&" else "?") ++ "_ts=" ++ Nat.repr ts

/- ---------- the fetch loop, with the network client as an oracle ---------- -/

/-- Outcome of one `client.get(url)…send()` plus body read: `sendErr` models
a transport failure of `send()`, `resp ok body` a response with success flag
`ok` whose `text()` read yields `body` (itself fallible). -/
inductive FetchOutcome where
  | sendErr : FetchOutcome
  | resp : Bool → Except Unit String → FetchOutcome

/-- The error taxonomy of the pipeline entry point. -/
inductive ConvError where
  | emptyInput : ConvError
  | transport : ConvError
  | upstreamStatus : ConvError
deriving DecidableEq

/-- The candidate loop of `try_fetch_backend_json`: `send()` errors and
`text()` errors propagate through `?`; a non-success status `continue`s; a
successful parse returns; an unparsable success `continue`s. -/
def fetch_candidates (fetch : String → FetchOutcome) (normalized : String) :
    List String → Except ConvError (Option String)
  | [] => Except.ok none
  | u :: rest =>
    match fetch u with
    | FetchOutcome.sendErr => Except.error ConvError.transport
    | FetchOutcome.resp ok body =>
      if ok then
        match body with
        | Except.error _ => Except.error ConvError.transport
        | Except.ok b =>
          match parse_backend_to_markdown b normalized with
          | some md => Except.ok (some md)
          | none => fetch_candidates fetch normalized rest
      else fetch_candidates fetch normalized rest

/-- `try_fetch_backend_json` from src/main.rs. -/
def try_fetch_backend_json (fetch : String → FetchOutcome) (normalized : String)
    (ts : Nat) : Except ConvError (Option String) :=
  fetch_candidates fetch normalized (candidates (backendShareId normalized) ts)

/-- `fetch_and_convert` from src/main.rs: empty-input check, normalization,
structured attempt (its errors propagate), then the fatal fallback fetch.
`tsBackend` and `tsFallback` are the two timestamps read during the run. -/
def fetch_and_convert (fetch : String → FetchOutcome) (share_url : String)
    (tsBackend tsFallback : Nat) : Except ConvError String :=
  if (rustTrim share_url).data.isEmpty then Except.error ConvError.emptyInput
  else
    let normalized := normalize share_url
    match try_fetch_backend_json fetch normalized tsBackend with
    | Except.error e => Except.error e
    | Except.ok (some md) => Except.ok md
    | Except.ok none =>
      match fetch (fallbackUrl normalized tsFallback) with
      | FetchOutcome.sendErr => Except.error ConvError.transport
      | FetchOutcome.resp ok body =>
        if ok then
          match body with
          | Except.error _ => Except.error ConvError.transport
          | Except.ok text => Except.ok (assembleFallback share_url text)
        else Except.error ConvError.upstreamStatus

/- ---------- spec-side predicates and concrete fetchers ---------- -/

/-- Spec-side predicate: the reference contains `/share/` followed by at
least one character of the class `[a-f0-9-]` (i.e. by a non-empty run). -/
def hasShareTok (s : List Char) : Prop :=
  ∃ pre c post, s = pre ++ shareLit ++ c :: post ∧ isShareChar c = true

/-- Spec-side predicate: the marker occurs at offset `i` of `s` and the
occurrence is line-anchored (start of text or right after a newline). -/
def anchoredOccur (s : List Char) (i : Nat) : Prop :=
  (i = 0 ∨ s[i - 1]? = some '\n') ∧ markerL.isPrefixOf (s.drop i) = true

/-- Marker occurrence at offset `k` of the scanner's remaining input `t`,
where `anch` says whether position 0 of `t` is line-anchored. -/
def markerOcc (t : List Char) (anch : Bool) (k : Nat) : Prop :=
  (match k with
   | 0 => anch = true
   | k' + 1 => t[k']? = some '\n') ∧
  markerL.isPrefixOf (t.drop k) = true

/-- A fetcher whose second structured candidate would succeed while every
other URL fails at transport level. -/
def transportThenGood : String → FetchOutcome := fun u =>
  if u = "https://r.jina.ai/https://chatgpt.com/backend-api/share/abc?_ts=0"
  then FetchOutcome.resp true (Except.ok "\"role\":\"user\",\"parts\":[\"hi\"]")
  else FetchOutcome.sendErr

/-- A fetcher that fails every structured candidate with a non-success
status and answers the fallback URL of `chatgpt.com/x` with body `Hello`. -/
def fallbackOnlyFetch : String → FetchOutcome := fun u =>
  if u = fallbackUrl (normalize "chatgpt.com/x") 1
  then FetchOutcome.resp true (Except.ok "Hello")
  else FetchOutcome.resp false (Except.ok "")

/- ==================== helper lemmas ==================== -/

theorem strMkData (s : String) : String.mk s.data = s := rfl

theorem trimStartAux_not_prefix (pat : List Char) (fuel : Nat) (s : List Char)
    (h : pat.isPrefixOf s = false) : trimStartAux pat fuel s = s := by
  cases fuel with
  | zero => rfl
  | succ n => simp [trimStartAux, h]

theorem trimStartAux_decomp (pat : List Char) (hp : pat ≠ []) :
    ∀ fuel s, s.length < fuel →
      ∃ n, s = repeatL pat n ++ trimStartAux pat fuel s ∧
        pat.isPrefixOf (trimStartAux pat fuel s) = false := by
  intro fuel
  induction fuel with
  | zero => intro s h; omega
  | succ m ih =>
    intro s hlen
    cases h : pat.isPrefixOf s with
    | false =>
      refine ⟨0, ?_, ?_⟩
      · simp [trimStartAux, h, repeatL]
      · simp [trimStartAux, h]
    | true =>
      obtain ⟨t, ht⟩ : pat <+: s := List.isPrefixOf_iff_prefix.mp h
      have hdrop : s.drop pat.length = t := by
        rw [← ht]; exact List.drop_left pat t
      have hlt : t.length < m := by
        have : s.length = pat.length + t.length := by rw [← ht]; simp
        have hp1 : 1 ≤ pat.length := by
          cases pat with
          | nil => exact absurd rfl hp
          | cons a l => simp
        omega
      obtain ⟨n, hn1, hn2⟩ := ih t hlt
      have haux : trimStartAux pat (m + 1) s = trimStartAux pat m t := by
        simp [trimStartAux, h, hdrop]
      refine ⟨n + 1, ?_, ?_⟩
      · rw [haux, ← ht]
        calc pat ++ t = pat ++ (repeatL pat n ++ trimStartAux pat m t) := by rw [← hn1]
          _ = repeatL pat (n + 1) ++ trimStartAux pat m t := by
              simp [repeatL, List.append_assoc]
      · rw [haux]; exact hn2

theorem normalize_fixed_of_schemeless (s : String) (h1 : rustTrim s = s)
    (h2 : "https://".data.isPrefixOf s.data = false)
    (h3 : "http://".data.isPrefixOf s.data = false) : normalize s = s := by
  have hd : rustTrimL s.data = s.data := congrArg String.data h1
  have e1 : trimStartMatchesL "https://".data (rustTrimL s.data) = s.data := by
    rw [hd]; exact trimStartAux_not_prefix _ _ _ h2
  have e2 : trimStartMatchesL "http://".data s.data = s.data :=
    trimStartAux_not_prefix _ _ _ h3
  show String.mk (normalizeL s.data) = s
  rw [normalizeL, e1, e2]

/- ==================== C2 ==================== -/

/-- Claim C2 (amended): the Reference Normalizer first trims surrounding
whitespace, then repeatedly strips every leading `https://` and afterwards
every leading `http://` (case-sensitive, in that order) — so the trimmed
input is exactly some copies of `https://`, then some copies of `http://`,
followed by the result, which never retains a leading `http://`; embedded
scheme substrings beyond those leading copies are untouched (the result is a
literal suffix of the trimmed input). -/
theorem c2_normalizer_strips_all_leading_schemes (s : String) :
    ∃ n m, rustTrimL s.data =
      repeatL "https://".data n ++ (repeatL "http://".data m ++ (normalize s).data) ∧
      "http://".data.isPrefixOf (normalize s).data = false := by
  have hs : ("https://".data : List Char) ≠ [] := by decide
  have hh : ("http://".data : List Char) ≠ [] := by decide
  set a := rustTrimL s.data with ha
  obtain ⟨n, hn1, _⟩ := trimStartAux_decomp "https://".data hs (a.length + 1) a (by omega)
  set b := trimStartAux "https://".data (a.length + 1) a with hb
  obtain ⟨m, hm1, hm2⟩ := trimStartAux_decomp "http://".data hh (b.length + 1) b (by omega)
  have hnorm : (normalize s).data = trimStartAux "http://".data (b.length + 1) b := rfl
  refine ⟨n, m, ?_, ?_⟩
  · rw [hnorm, ← hm1, hn1]
  · rw [hnorm]; exact hm2

/-- Claim C2 counterexample: stripping is repeated, not "at most one", and a
scheme prefix exposed by the first strip is removed, not kept. -/
theorem c2_counterexample :
    normalize "https://http://example.com" = "example.com" ∧
    normalize "https://http://example.com" ≠ "http://example.com" ∧
    normalize "https://https://x.com" = "x.com" := by
  refine ⟨by decide, by decide, by decide⟩

/- ==================== C7 ==================== -/

/-- Claim C7 (amended): normalizing the example yields the scheme-less
reference, and normalization is the identity on every trimmed scheme-less
string; it is idempotent on inputs whose normalized form is again trimmed
and scheme-less, but not in general. -/
theorem c7_normalize_example_identity_idempotence :
    normalize "https://chatgpt.com/share/abc-123" = "chatgpt.com/share/abc-123" ∧
    (∀ s : String, rustTrim s = s →
      "https://".data.isPrefixOf s.data = false →
      "http://".data.isPrefixOf s.data = false →
      normalize s = s) ∧
    (∀ s : String, rustTrim (normalize s) = normalize s →
      "https://".data.isPrefixOf (normalize s).data = false →
      "http://".data.isPrefixOf (normalize s).data = false →
      normalize (normalize s) = normalize s) := by
  refine ⟨by decide, ?_, ?_⟩
  · intro s h1 h2 h3; exact normalize_fixed_of_schemeless s h1 h2 h3
  · intro s h1 h2 h3; exact normalize_fixed_of_schemeless (normalize s) h1 h2 h3

/-- Witness for C7: the identity clause applied at a concrete trimmed,
scheme-less reference. -/
theorem c7_witness : normalize "chatgpt.com/share/abc-123" = "chatgpt.com/share/abc-123" :=
  c7_normalize_example_identity_idempotence.2.1 "chatgpt.com/share/abc-123"
    (by decide) (by decide) (by decide)

/-- Claim C7 counterexample: normalization is not idempotent — stripping all
leading `http://` copies can expose a fresh `https://`, which a second pass
removes. -/
theorem c7_counterexample :
    normalize (normalize "http://https://x.com") ≠ normalize "http://https://x.com" ∧
    normalize "http://https://x.com" = "https://x.com" ∧
    normalize "https://x.com" = "x.com" := by
  refine ⟨by decide, by decide, by decide⟩

/- ==================== C1 ==================== -/

/-- Claim C1 (amended): during structured extraction a non-success status,
and a successful response whose body yields no structured result, are soft —
the loop moves to the next candidate; but a transport error on a candidate's
fetch propagates to the caller as fatal (as do the fallback fetch's failure
and the empty-input check). -/
theorem c1_candidate_loop_soft_and_fatal :
    (∀ (fetch : String → FetchOutcome) (n u : String) (rest : List String) e,
      fetch u = FetchOutcome.resp false e →
      fetch_candidates fetch n (u :: rest) = fetch_candidates fetch n rest) ∧
    (∀ (fetch : String → FetchOutcome) (n u : String) (rest : List String) b,
      fetch u = FetchOutcome.resp true (Except.ok b) →
      parse_backend_to_markdown b n = none →
      fetch_candidates fetch n (u :: rest) = fetch_candidates fetch n rest) ∧
    (∀ (fetch : String → FetchOutcome) (n u : String) (rest : List String),
      fetch u = FetchOutcome.sendErr →
      fetch_candidates fetch n (u :: rest) = Except.error ConvError.transport) := by
  refine ⟨?_, ?_, ?_⟩
  · intro fetch n u rest e h; simp [fetch_candidates, h]
  · intro fetch n u rest b h hp; simp [fetch_candidates, h, hp]
  · intro fetch n u rest h; simp [fetch_candidates, h]

/-- Witness for C1: each clause of the loop behaviour at a concrete fetcher. -/
theorem c1_witness :
    fetch_candidates (fun _ => FetchOutcome.resp false (Except.ok "")) "n" ["s"] =
      fetch_candidates (fun _ => FetchOutcome.resp false (Except.ok "")) "n" [] ∧
    fetch_candidates (fun _ => FetchOutcome.resp true (Except.ok "zz")) "n" ["t"] =
      fetch_candidates (fun _ => FetchOutcome.resp true (Except.ok "zz")) "n" [] ∧
    fetch_candidates (fun _ => FetchOutcome.sendErr) "n" ["u"] =
      Except.error ConvError.transport :=
  ⟨c1_candidate_loop_soft_and_fatal.1 _ "n" "s" [] (Except.ok "") rfl,
   c1_candidate_loop_soft_and_fatal.2.1 _ "n" "t" [] "zz" rfl rfl,
   c1_candidate_loop_soft_and_fatal.2.2 _ "n" "u" [] rfl⟩

/-- Claim C1 counterexample: a transport error on the FIRST candidate is
propagated to the caller — the loop never reaches the second candidate, even
though fetching it would have produced a document. -/
theorem c1_counterexample :
    try_fetch_backend_json transportThenGood "abc" 0 = Except.error ConvError.transport ∧
    fetch_candidates transportThenGood "abc"
        ["https://r.jina.ai/https://chatgpt.com/backend-api/share/abc?_ts=0"] =
      Except.ok (some "# ChatGPT Conversation\n\n**Источник**: https://abc\n\n> Пользователь: hi\n\n") :=
  ⟨rfl, rfl⟩

/- ==================== C5 ==================== -/

/-- Claim C5 (amended): every invocation builds exactly two candidate URLs,
http-inner first and https-inner second, each suffixed with the cache-buster
`?_ts={ts}` — but both carry the SAME buster value, the single timestamp read
once per invocation, not distinct ones. -/
theorem c5_two_candidates_same_buster (id : String) (ts : Nat) :
    candidates id ts =
      ["https://r.jina.ai/http://chatgpt.com/backend-api/share/" ++ id ++ "?_ts=" ++ Nat.repr ts,
       "https://r.jina.ai/https://chatgpt.com/backend-api/share/" ++ id ++ "?_ts=" ++ Nat.repr ts] ∧
    (candidates id ts).length = 2 ∧
    ("?_ts=" ++ Nat.repr ts).data <:+
      ("https://r.jina.ai/http://chatgpt.com/backend-api/share/" ++ id ++ "?_ts=" ++ Nat.repr ts).data ∧
    ("?_ts=" ++ Nat.repr ts).data <:+
      ("https://r.jina.ai/https://chatgpt.com/backend-api/share/" ++ id ++ "?_ts=" ++ Nat.repr ts).data := by
  refine ⟨rfl, rfl, ?_, ?_⟩
  · exact ⟨("https://r.jina.ai/http://chatgpt.com/backend-api/share/" ++ id).data,
      by simp [String.data_append, List.append_assoc]⟩
  · exact ⟨("https://r.jina.ai/https://chatgpt.com/backend-api/share/" ++ id).data,
      by simp [String.data_append, List.append_assoc]⟩

/-- Claim C5 counterexample: within one invocation the two candidates carry
the same cache-buster value, so the busters are not distinct. -/
theorem c5_counterexample :
    (candidates "abc" 7).map cacheBuster = [some "7", some "7"] := by decide

/- ==================== C9 ==================== -/

/-- Claim C9: `json_unescape` is total — it returns the decoded text when
wrapping the fragment in quotes parses as a complete JSON string literal,
and returns the fragment unchanged when the decode fails. -/
theorem c9_unescape_total (s : String) :
    (∀ t, jsonParseStringTotal ('"' :: s.data ++ ['"']) = some t →
      json_unescape s = String.mk t) ∧
    (jsonParseStringTotal ('"' :: s.data ++ ['"']) = none → json_unescape s = s) := by
  constructor
  · intro t h; unfold json_unescape; rw [h]
  · intro h; unfold json_unescape; rw [h]

/-- Witness for C9: a decodable fragment is decoded, an undecodable one is
returned unchanged. -/
theorem c9_witness :
    json_unescape "a\\nb" = String.mk ("a\nb").data ∧ json_unescape "\\q" = "\\q" :=
  ⟨(c9_unescape_total "a\\nb").1 ("a\nb").data (by decide),
   (c9_unescape_total "\\q").2 (by decide)⟩

/- ==================== C3 ==================== -/

/-- Claim C3 (code bug): the fallback title regex `^Title:\s*(.*)$` was
written without `(?m)`, so `$` anchors to the end of the whole body: on the
multi-line bodies the proxy actually returns, a leading `Title: X` line is
never captured and the placeholder is always used, contradicting the
line-anchored extraction the spec describes (the sibling marker regex does
use `(?m)`). -/
theorem c3_title_only_matches_single_line_body :
    fallbackTitle "Title: Example\nBody text" = "ChatGPT Conversation" ∧
    "ChatGPT Conversation" ≠ "Example" ∧
    fallbackTitle "Title: Example" = "Example" := by
  refine ⟨by decide, by decide, by decide⟩

/- ==================== C4 ==================== -/

theorem containsSub_append_of_right (pat b a : List Char)
    (h : containsSub pat b = true) : containsSub pat (a ++ b) = true := by
  induction a with
  | nil => simpa using h
  | cons c a' ih => simp [containsSub, ih]

theorem containsSub_refl_append (pat b : List Char) : containsSub pat (pat ++ b) = true := by
  cases pat with
  | nil =>
    cases b with
    | nil => rfl
    | cons c bs => simp [containsSub]
  | cons p ps =>
    have hpre : (p :: ps).isPrefixOf (p :: (ps ++ b)) = true :=
      List.isPrefixOf_iff_prefix.mpr ⟨b, by simp⟩
    show containsSub (p :: ps) (p :: (ps ++ b)) = true
    simp [containsSub, hpre]

/-- Claim C4: the Structured Extractor succeeds only when the role/parts
scan found at least one match — a body with zero matches yields `none`,
never an empty transcript, and every returned document renders at least one
turn block. -/
theorem c4_structured_needs_a_match (body ref : String) :
    (parse_backend_to_markdown body ref = none ↔ scanMatches body.data = []) ∧
    (∀ doc, parse_backend_to_markdown body ref = some doc →
      scanMatches body.data ≠ [] ∧ containsSub "> ".data doc.data = true) := by
  cases hscan : scanMatches body.data with
  | nil =>
    have hnone : parse_backend_to_markdown body ref = none := by
      unfold parse_backend_to_markdown
      rw [hscan]
      rfl
    constructor
    · simp [hnone]
    · intro doc hdoc
      rw [hnone] at hdoc
      exact absurd hdoc (by simp)
  | cons m ms =>
    have hsome : parse_backend_to_markdown body ref =
        some (assembleStructured
          ((findTitle body.data).map fun cap => json_unescape (String.mk cap)) ref
          ((m :: ms).map fun p => (p.1, partsToText p.2))) := by
      unfold parse_backend_to_markdown
      rw [hscan]
      rfl
    constructor
    · simp [hsome]
    · intro doc hdoc
      rw [hsome] at hdoc
      have hdoc' := Option.some.inj hdoc
      refine ⟨by simp, ?_⟩
      rw [← hdoc']
      unfold assembleStructured
      rw [String.data_append]
      apply containsSub_append_of_right
      simp only [List.map_cons, concatBlocks]
      rw [String.data_append]
      unfold turnBlock
      simp only [String.data_append, List.append_assoc]
      exact containsSub_refl_append _ _

/-- Witness for C4: a one-match body produces a document containing a turn
block. -/
theorem c4_witness :
    scanMatches ("\"role\":\"user\",\"parts\":[\"ok\"]" : String).data ≠ [] ∧
    containsSub "> ".data
      ("# ChatGPT Conversation\n\n**Источник**: https://z\n\n> Пользователь: ok\n\n" : String).data = true :=
  (c4_structured_needs_a_match "\"role\":\"user\",\"parts\":[\"ok\"]" "z").2
    "# ChatGPT Conversation\n\n**Источник**: https://z\n\n> Пользователь: ok\n\n" (by decide)

/- ==================== C6 ==================== -/

theorem hasShareTok_cons_iff (c : Char) (rest : List Char) :
    hasShareTok (c :: rest) ↔
      (∃ u, c :: rest = shareLit ++ u ∧ ∃ c' post, u = c' :: post ∧ isShareChar c' = true) ∨
        hasShareTok rest := by
  constructor
  · rintro ⟨pre, c', post, heq, hc⟩
    cases pre with
    | nil =>
      left
      exact ⟨c' :: post, by simpa using heq, c', post, rfl, hc⟩
    | cons p pre' =>
      right
      have h2 : c = p ∧ rest = pre' ++ shareLit ++ c' :: post := by
        simpa [List.cons_append, List.append_assoc] using heq
      exact ⟨pre', c', post, h2.2, hc⟩
  · rintro (⟨u, hu, c', post, hu2, hc⟩ | ⟨pre, c', post, heq, hc⟩)
    · exact ⟨[], c', post, by rw [hu, hu2]; simp, hc⟩
    · exact ⟨c :: pre, c', post, by simp [heq, List.cons_append, List.append_assoc], hc⟩

theorem extractShareAux_none_iff : ∀ s : List Char,
    extractShareAux s = none ↔ ¬ hasShareTok s := by
  intro s
  induction s with
  | nil =>
    constructor
    · rintro _ ⟨pre, c, post, heq, _⟩
      have := heq.symm
      rw [List.append_eq_nil] at this
      exact List.cons_ne_nil _ _ this.2
    · intro _; rfl
  | cons c rest ih =>
    cases hpre : shareLit.isPrefixOf (c :: rest) with
    | false =>
      have hstep : extractShareAux (c :: rest) = extractShareAux rest := by
        simp [extractShareAux, hpre]
      have hiff : hasShareTok (c :: rest) ↔ hasShareTok rest := by
        rw [hasShareTok_cons_iff]
        constructor
        · rintro (⟨u, hu, _⟩ | h)
          · have : shareLit.isPrefixOf (c :: rest) = true :=
              List.isPrefixOf_iff_prefix.mpr ⟨u, hu.symm⟩
            rw [this] at hpre; exact absurd hpre (by simp)
          · exact h
        · exact fun h => Or.inr h
      rw [hstep, ih, hiff]
    | true =>
      obtain ⟨u, hu⟩ : shareLit <+: (c :: rest) := List.isPrefixOf_iff_prefix.mp hpre
      have hdrop : (c :: rest).drop shareLit.length = u := by
        rw [← hu]; exact List.drop_left _ _
      cases hie : (u.takeWhile isShareChar).isEmpty with
      | true =>
        have htok : u.takeWhile isShareChar = [] := List.isEmpty_iff.mp hie
        have hstep : extractShareAux (c :: rest) = extractShareAux rest := by
          simp [extractShareAux, hpre, hdrop, htok]
        have hnotleft : ∀ c' post, u = c' :: post → isShareChar c' = false := by
          intro c' post hu2
          cases hcc : isShareChar c' with
          | false => rfl
          | true => rw [hu2] at htok; simp [List.takeWhile_cons, hcc] at htok
        have hiff : hasShareTok (c :: rest) ↔ hasShareTok rest := by
          rw [hasShareTok_cons_iff]
          constructor
          · rintro (⟨u', hu', c', post, hu2, hc⟩ | h)
            · have huu : u = u' := List.append_cancel_left (hu.trans hu')
              rw [hnotleft c' post (huu.trans hu2)] at hc
              exact absurd hc (by simp)
            · exact h
          · exact fun h => Or.inr h
        rw [hstep, ih, hiff]
      | false =>
        have hne : u.takeWhile isShareChar ≠ [] := by
          intro hnil; rw [hnil] at hie; simp at hie
        have hstep : extractShareAux (c :: rest) = some (u.takeWhile isShareChar) := by
          simp [extractShareAux, hpre, hdrop, hie]
        have hhas : hasShareTok (c :: rest) := by
          cases u with
          | nil => simp at hne
          | cons v u' =>
            cases hv : isShareChar v with
            | false => simp [List.takeWhile_cons, hv] at hne
            | true => exact ⟨[], v, u', by rw [← hu]; simp, hv⟩
        rw [hstep]
        simp [hhas]

theorem head_dropWhile_false (p : Char → Bool) : ∀ (l : List Char) (d : Char),
    (l.dropWhile p).head? = some d → p d = false := by
  intro l
  induction l with
  | nil => intro d hd; simp at hd
  | cons c l' ih =>
    intro d hd
    cases hc : p c with
    | true =>
      rw [List.dropWhile_cons, hc] at hd
      exact ih d (by simpa using hd)
    | false =>
      rw [List.dropWhile_cons, hc] at hd
      simp at hd
      rw [hd] at hc
      exact hc

theorem extractShareAux_some_spec : ∀ (s tok : List Char),
    extractShareAux s = some tok →
    tok ≠ [] ∧ tok.all isShareChar = true ∧
    ∃ pre post, s = pre ++ shareLit ++ (tok ++ post) ∧
      (∀ d, post.head? = some d → isShareChar d = false) := by
  intro s
  induction s with
  | nil => intro tok h; simp [extractShareAux] at h
  | cons c rest ih =>
    intro tok h
    cases hpre : shareLit.isPrefixOf (c :: rest) with
    | false =>
      rw [show extractShareAux (c :: rest) = extractShareAux rest by
        simp [extractShareAux, hpre]] at h
      obtain ⟨h1, h2, pre, post, h3, h4⟩ := ih tok h
      exact ⟨h1, h2, c :: pre, post, by simp [h3, List.cons_append, List.append_assoc], h4⟩
    | true =>
      obtain ⟨u, hu⟩ : shareLit <+: (c :: rest) := List.isPrefixOf_iff_prefix.mp hpre
      have hdrop : (c :: rest).drop shareLit.length = u := by
        rw [← hu]; exact List.drop_left _ _
      cases hie : (u.takeWhile isShareChar).isEmpty with
      | true =>
        have hstep : extractShareAux (c :: rest) = extractShareAux rest := by
          simp [extractShareAux, hpre, hdrop, List.isEmpty_iff.mp hie]
        rw [hstep] at h
        obtain ⟨h1, h2, pre, post, h3, h4⟩ := ih tok h
        exact ⟨h1, h2, c :: pre, post, by simp [h3, List.cons_append, List.append_assoc], h4⟩
      | false =>
        have hstep : extractShareAux (c :: rest) = some (u.takeWhile isShareChar) := by
          simp [extractShareAux, hpre, hdrop, hie]
        rw [hstep] at h
        have htok := Option.some.inj h
        refine ⟨?_, ?_, [], u.dropWhile isShareChar, ?_, ?_⟩
        · rw [← htok]; intro hnil; rw [hnil] at hie; simp at hie
        · rw [← htok]; exact List.all_takeWhile
        · rw [← htok, ← hu]
          simp [List.takeWhile_append_dropWhile]
        · exact fun d hd => head_dropWhile_false isShareChar u d hd

/-- Claim C6: on a normalized reference with a `/share/` segment followed by
a non-empty `[a-f0-9-]` run, the Identifier Extractor returns such a token
(a non-empty all-class token sitting right after `/share/`, maximal in that
the next character is outside the class), as on the example; with no such
segment it returns nothing and the caller substitutes the full normalized
reference. -/
theorem c6_identifier_extraction (s t : String) :
    (extract_share_id s = none ↔ ¬ hasShareTok s.data) ∧
    (extract_share_id s = some t →
      t.data ≠ [] ∧ t.data.all isShareChar = true ∧
      ∃ pre post, s.data = pre ++ shareLit ++ (t.data ++ post) ∧
        (∀ d, post.head? = some d → isShareChar d = false)) ∧
    (extract_share_id s = none → backendShareId s = s) ∧
    extract_share_id "chatgpt.com/share/0123abcd-4567-89ef" = some "0123abcd-4567-89ef" := by
  refine ⟨?_, ?_, ?_, by decide⟩
  · unfold extract_share_id
    rw [Option.map_eq_none']
    exact extractShareAux_none_iff s.data
  · intro h
    unfold extract_share_id at h
    obtain ⟨l, hl, hmk⟩ := Option.map_eq_some'.mp h
    cases hmk
    exact extractShareAux_some_spec s.data l hl
  · intro h
    unfold backendShareId
    rw [h]
    rfl

/-- Witness for C6: the extractor applied on the example reference and on a
reference without a share segment. -/
theorem c6_witness :
    (("0123abcd-4567-89ef" : String).data ≠ [] ∧
      ("0123abcd-4567-89ef" : String).data.all isShareChar = true ∧
      ∃ pre post, ("chatgpt.com/share/0123abcd-4567-89ef" : String).data =
        pre ++ shareLit ++ (("0123abcd-4567-89ef" : String).data ++ post) ∧
        (∀ d, post.head? = some d → isShareChar d = false)) ∧
    backendShareId "nope.example.com" = "nope.example.com" :=
  ⟨(c6_identifier_extraction "chatgpt.com/share/0123abcd-4567-89ef" "0123abcd-4567-89ef").2.1
      (by decide),
   (c6_identifier_extraction "nope.example.com" "x").2.2.1 (by decide)⟩

/- ==================== C8 ==================== -/

theorem markerOcc_zero (t : List Char) (anch : Bool) :
    markerOcc t anch 0 ↔ (anch = true ∧ markerL.isPrefixOf t = true) := by
  unfold markerOcc
  simp

theorem markerOcc_cons (c : Char) (rest : List Char) (anch : Bool) (k : Nat) :
    markerOcc (c :: rest) anch (k + 1) ↔ markerOcc rest (c == '\n') k := by
  unfold markerOcc
  cases k with
  | zero => simp [List.getElem?_cons_zero, List.drop_succ_cons]
  | succ k' => simp [List.getElem?_cons_succ, List.drop_succ_cons]

theorem findMarkerAux_none : ∀ (t : List Char) (i : Nat) (anch : Bool),
    findMarkerAux t i anch = none → ∀ k, ¬ markerOcc t anch k := by
  intro t
  induction t with
  | nil =>
    rintro i anch _ k ⟨_, hp⟩
    rw [List.drop_nil] at hp
    exact absurd hp (by decide)
  | cons c rest ih =>
    intro i anch h k
    unfold findMarkerAux at h
    cases hc : (anch && markerL.isPrefixOf (c :: rest)) with
    | true => rw [hc] at h; simp at h
    | false =>
      rw [hc] at h
      simp at h
      cases k with
      | zero =>
        rw [markerOcc_zero]
        rintro ⟨h1, h2⟩
        simp [h1, h2] at hc
      | succ k' =>
        rw [markerOcc_cons]
        exact ih (i + 1) (c == '\n') h k'

theorem findMarkerAux_some : ∀ (t : List Char) (i : Nat) (anch : Bool) (j : Nat),
    findMarkerAux t i anch = some j →
    ∃ k, j = i + k ∧ markerOcc t anch k ∧ ∀ k' < k, ¬ markerOcc t anch k' := by
  intro t
  induction t with
  | nil => intro i anch j h; simp [findMarkerAux] at h
  | cons c rest ih =>
    intro i anch j h
    unfold findMarkerAux at h
    cases hc : (anch && markerL.isPrefixOf (c :: rest)) with
    | true =>
      rw [hc] at h
      simp at h
      rw [Bool.and_eq_true] at hc
      refine ⟨0, by omega, ?_, fun k' hk' => absurd hk' (Nat.not_lt_zero k')⟩
      rw [markerOcc_zero]
      exact hc
    | false =>
      rw [hc] at h
      simp at h
      obtain ⟨k, hk1, hk2, hk3⟩ := ih (i + 1) (c == '\n') j h
      refine ⟨k + 1, by omega, ?_, ?_⟩
      · rw [markerOcc_cons]; exact hk2
      · intro k' hk'
        cases k' with
        | zero =>
          rw [markerOcc_zero]
          rintro ⟨h1, h2⟩
          simp [h1, h2] at hc
        | succ k'' =>
          rw [markerOcc_cons]
          exact hk3 k'' (by omega)

theorem markerOcc_true_iff_anchored (s : List Char) (k : Nat) :
    markerOcc s true k ↔ anchoredOccur s k := by
  cases k with
  | zero =>
    unfold markerOcc anchoredOccur
    simp
  | succ k' =>
    unfold markerOcc anchoredOccur
    simp

/-- Claim C8 (amended): the fallback body is truncated at the first
LINE-ANCHORED occurrence of the turn-boundary marker (the marker regex
carries `(?m)^`, so an occurrence counts only at the start of the body or
right after a newline); when the regex finds no such occurrence — even if
the marker text occurs mid-line — the whole body is emitted verbatim. -/
theorem c8_fallback_marker_truncation (text : String) :
    (∀ i, findMarker text.data = some i →
      fallbackBody text = String.mk (text.data.drop i) ∧
      anchoredOccur text.data i ∧ ∀ j < i, ¬ anchoredOccur text.data j) ∧
    (findMarker text.data = none →
      fallbackBody text = text ∧ ∀ j, ¬ anchoredOccur text.data j) := by
  constructor
  · intro i hi
    obtain ⟨k, hk1, hk2, hk3⟩ := findMarkerAux_some text.data 0 true i hi
    have hik : i = k := by omega
    refine ⟨?_, ?_, ?_⟩
    · unfold fallbackBody
      rw [hi]
    · rw [hik, ← markerOcc_true_iff_anchored]
      exact hk2
    · intro j hj
      rw [← markerOcc_true_iff_anchored]
      exact hk3 j (by omega)
  · intro h
    refine ⟨?_, ?_⟩
    · unfold fallbackBody
      rw [h]
    · intro j
      rw [← markerOcc_true_iff_anchored]
      exact findMarkerAux_none text.data 0 true h j

/-- Witness for C8: a body whose marker sits right after the first newline,
at offset 2. -/
theorem c8_witness :
    fallbackBody "a\n##### You said: hi" =
      String.mk (("a\n##### You said: hi" : String).data.drop 2) ∧
    anchoredOccur ("a\n##### You said: hi" : String).data 2 ∧
    (∀ j < 2, ¬ anchoredOccur ("a\n##### You said: hi" : String).data j) :=
  (c8_fallback_marker_truncation "a\n##### You said: hi").1 2 (by decide)

/-- Claim C8 counterexample: the marker text occurs in the body (at offset
1), yet the emitted body is the whole text, not the text from the marker on
— a mid-line occurrence does not match the line-anchored regex. -/
theorem c8_counterexample :
    containsSub markerL ("x##### You said:y" : String).data = true ∧
    fallbackBody "x##### You said:y" = "x##### You said:y" ∧
    ("x##### You said:y" : String) ≠ "##### You said:y" := by
  refine ⟨by decide, by decide, by decide⟩

/- ==================== C10 ==================== -/

/-- Claim C10: a structured document's source line re-adds `https://` in
front of the NORMALIZED reference, whatever scheme the user supplied, while
the fallback document embeds the ORIGINAL unnormalized input in its source
line. -/
theorem c10_source_lines (body ref : String) :
    (∀ doc, parse_backend_to_markdown body ref = some doc →
      ∃ t rest, doc =
        ("# " ++ t ++ "\n\n" ++ "**Источник**: https://" ++ ref ++ "\n\n") ++ rest) ∧
    (∀ (fetch : String → FetchOutcome) (share_url : String) (ts1 ts2 : Nat) (text : String),
      (rustTrim share_url).data.isEmpty = false →
      try_fetch_backend_json fetch (normalize share_url) ts1 = Except.ok none →
      fetch (fallbackUrl (normalize share_url) ts2) = FetchOutcome.resp true (Except.ok text) →
      fetch_and_convert fetch share_url ts1 ts2 =
        Except.ok (("# " ++ fallbackTitle text ++ "\n\n" ++ "**Источник**: " ++ share_url ++ "\n\n") ++
          fallbackBody text)) := by
  constructor
  · intro doc hdoc
    cases hscan : scanMatches body.data with
    | nil =>
      have hnone : parse_backend_to_markdown body ref = none := by
        unfold parse_backend_to_markdown
        rw [hscan]
        rfl
      rw [hnone] at hdoc
      exact absurd hdoc (by simp)
    | cons m ms =>
      have hsome : parse_backend_to_markdown body ref =
          some (assembleStructured
            ((findTitle body.data).map fun cap => json_unescape (String.mk cap)) ref
            ((m :: ms).map fun p => (p.1, partsToText p.2))) := by
        unfold parse_backend_to_markdown
        rw [hscan]
        rfl
      rw [hsome] at hdoc
      have hdoc' := Option.some.inj hdoc
      refine ⟨((findTitle body.data).map fun cap =>
          json_unescape (String.mk cap)).getD "ChatGPT Conversation",
        concatBlocks ((m :: ms).map fun p => (p.1, partsToText p.2)), ?_⟩
      rw [← hdoc']
      rfl
  · intro fetch share_url ts1 ts2 text h1 h2 h3
    unfold fetch_and_convert
    rw [h1]
    simp only [Bool.false_eq_true, if_false]
    rw [h2, h3]
    rfl

set_option maxHeartbeats 1600000 in
/-- Witness for C10: the structured source line on a one-turn body, and the
fallback source line through a concrete fetcher. -/
theorem c10_witness :
    (∃ t rest,
      ("# ChatGPT Conversation\n\n**Источник**: https://z\n\n> Пользователь: ok\n\n" : String) =
        ("# " ++ t ++ "\n\n" ++ "**Источник**: https://" ++ "z" ++ "\n\n") ++ rest) ∧
    fetch_and_convert fallbackOnlyFetch "chatgpt.com/x" 0 1 =
      Except.ok (("# " ++ fallbackTitle "Hello" ++ "\n\n" ++ "**Источник**: " ++
        "chatgpt.com/x" ++ "\n\n") ++ fallbackBody "Hello") :=
  ⟨(c10_source_lines "\"role\":\"user\",\"parts\":[\"ok\"]" "z").1
      "# ChatGPT Conversation\n\n**Источник**: https://z\n\n> Пользователь: ok\n\n" (by decide),
   (c10_source_lines "" "").2 fallbackOnlyFetch "chatgpt.com/x" 0 1 "Hello" rfl rfl rfl⟩

end Kraken
